import Mathlib

/-
  Verification of the channel-transaction core in src/src/exercises/exercises.rs.

  The embedding follows the source file function by function.  External
  collaborators (the secp256k1 arithmetic, SHA256/HASH160 digests and the
  internal helper modules that are not part of the sources) are either
  modelled from the specification (doc comments say so) or taken as
  explicit function parameters, so every theorem below is quantified over
  all possible implementations of those collaborators.
-/

namespace LN

/-- A script item: an opcode byte or a length-prefixed data push.  The spec
(§9) models scripts as an ordered sequence of typed items. -/
inductive ScriptItem where
  | op : Nat → ScriptItem
  | push : List Nat → ScriptItem
deriving DecidableEq

/-- A witness script, as built by the fluent `Builder` chains of the source. -/
abbrev Script := List ScriptItem

/-- A public key, represented by its serialized bytes (serialization is
delegated to the external library; the source only ever pushes it). -/
structure PublicKey where
  bytes : List Nat
deriving DecidableEq

/-- Previous-output locator of an input. -/
structure OutPoint where
  txid : List Nat
  vout : Nat
deriving DecidableEq

/-- A transaction input: previous-output locator, script_sig, sequence
number and witness stack, exactly the fields of `bitcoin::TxIn`. -/
structure TxIn where
  previous_output : OutPoint
  script_sig : List Nat
  sequence : Nat
  witness : List (List Nat)
deriving DecidableEq

/-- A transaction output: a 64-bit amount and the scriptPubKey bytes. -/
structure TxOut where
  value : Nat
  script_pubkey : List Nat
deriving DecidableEq

/-- An unsigned transaction: version, locktime, inputs, outputs. -/
structure Transaction where
  version : Int
  lock_time : Nat
  input : List TxIn
  output : List TxOut
deriving DecidableEq

/- Opcode byte values used by the source (from the scripting library). -/

def OP_0 : Nat := 0x00
def OP_PUSHNUM_1 : Nat := 0x51
def OP_IF : Nat := 0x63
def OP_ELSE : Nat := 0x67
def OP_ENDIF : Nat := 0x68
def OP_DROP : Nat := 0x75
def OP_CSV : Nat := 0xb2
def OP_CHECKSIG : Nat := 0xac
def OP_CHECKMULTISIG : Nat := 0xae

/-- Little-endian base-256 digits of a natural number, least significant
first, no leading zero digit (the loop of the library's write_scriptint,
whose 8-byte output buffer bounds the iteration count; 9 rounds of fuel
cover every 64-bit magnitude). -/
def leBytesF : Nat → Nat → List Nat
  | 0, _ => []
  | fuel + 1, m => if m = 0 then [] else (m % 256) :: leBytesF fuel (m / 256)

def leBytes (m : Nat) : List Nat := leBytesF 9 m

/-- Fix up the most significant byte of a script-number encoding: append a
sign byte when the top bit is taken, otherwise fold the sign into it. -/
def signLast (neg : Bool) : List Nat → List Nat
  | [] => []
  | [b] => if 0x80 ≤ b then [b, if neg then 0x80 else 0x00]
           else [if neg then b + 0x80 else b]
  | b :: rest => b :: signLast neg rest

/-- The scripting library's write_scriptint: minimal little-endian
signed-magnitude encoding of an integer. -/
def write_scriptint (n : Int) : List Nat :=
  signLast (n < 0) (leBytes n.natAbs)

/-- The scripting library's fluent script builder, which the source chains. -/
structure Builder where
  items : Script
deriving DecidableEq

def Builder.new : Builder := ⟨[]⟩

def Builder.push_opcode (b : Builder) (code : Nat) : Builder :=
  ⟨b.items ++ [.op code]⟩

def Builder.push_slice (b : Builder) (data : List Nat) : Builder :=
  ⟨b.items ++ [.push data]⟩

def Builder.push_key (b : Builder) (pk : PublicKey) : Builder :=
  b.push_slice pk.bytes

/-- The scripting library's push_int: -1 and 1..16 become single opcodes,
0 becomes OP_0, anything else a data push of its scriptint encoding. -/
def Builder.push_int (b : Builder) (data : Int) : Builder :=
  if data = -1 ∨ (1 ≤ data ∧ data ≤ 16) then
    b.push_opcode (0x50 + data).toNat
  else if data = 0 then
    b.push_opcode OP_0
  else
    b.push_slice (write_scriptint data)

def Builder.into_script (b : Builder) : Script := b.items

/-- Exercise 1 of the source: the 2-of-2 multisig witness script. -/
def two_of_two_multisig_witness_script (pubkey1 pubkey2 : PublicKey) : Script :=
  ((((Builder.new.push_int 2).push_key pubkey1).push_key
      pubkey2).push_int 2).push_opcode OP_CHECKMULTISIG |>.into_script

/-- Exercise 6 of the source: the revocable to-local script
IF key ELSE delay CSV DROP key ENDIF CHECKSIG.  Note the source returns a
plain script: there is no failure path and no validation of the delay. -/
def to_local (revocation_key to_local_delayed_pubkey : PublicKey)
    (to_self_delay : Int) : Script :=
  ((((((((Builder.new.push_opcode OP_IF).push_key
      revocation_key).push_opcode OP_ELSE).push_int
      to_self_delay).push_opcode OP_CSV).push_opcode OP_DROP).push_key
      to_local_delayed_pubkey).push_opcode OP_ENDIF).push_opcode
      OP_CHECKSIG |>.into_script

/-- The version-0 P2WSH output script of a witness-script hash, from the
external scripting library: OP_0 followed by the 32-byte push. -/
def new_p2wsh (h : List Nat) : List Nat := 0x00 :: 0x20 :: h

/-- Modelled from the spec: the internal helper p2wpkh_output_script is not
in the sources; per §4.2/§6 it is the plain key-hash output script, OP_0
followed by the 20-byte push of the key hash.  The HASH160 digest itself is
an external collaborator, passed as the parameter h160. -/
def p2wpkh_output_script (h160 : PublicKey → List Nat) (pk : PublicKey) :
    List Nat := 0x00 :: 0x14 :: h160 pk

/-- Modelled from the spec: the internal helper build_output is not in the
sources; per §3 an output is the pair of a value and a scriptPubKey. -/
def build_output (value : Nat) (script_pubkey : List Nat) : TxOut :=
  ⟨value, script_pubkey⟩

/-- Modelled from the spec: the internal helper build_transaction is not in
the sources; per §4.4 it is a pure constructor recording version, locktime
and the given input and output lists. -/
def build_transaction (version : Int) (lock_time : Nat)
    (inputs : List TxIn) (outputs : List TxOut) : Transaction :=
  ⟨version, lock_time, inputs, outputs⟩

/-- Byte-wise lexicographic comparison of byte strings, as the Ord
instance of the scripting library's script buffers. -/
def compareBytes : List Nat → List Nat → Ordering
  | [], [] => .eq
  | [], _ :: _ => .lt
  | _ :: _, [] => .gt
  | a :: as, b :: bs => (compare a b).then (compareBytes as bs)

/-- The output comparator of the source's sort_by closures: by value, then
by scriptPubKey bytes. -/
def cmpOut (a b : TxOut) : Ordering :=
  (compare a.value b.value).then (compareBytes a.script_pubkey b.script_pubkey)

/-- The non-strict order induced by the comparator. -/
def outLe (a b : TxOut) : Prop := cmpOut a b ≠ .gt

instance : DecidableRel outLe := fun a b => by
  unfold outLe; infer_instance

/-- The source's outputs.sort_by, a stable sort by cmpOut (the spec's
OutputOrderingPolicy, §4.3). -/
def sortOutputs (l : List TxOut) : List TxOut := List.insertionSort outLe l

/-- Exercise 2 of the source: the funding transaction, one P2WSH multisig
output.  The witness-script SHA256 digest is the external parameter wsh. -/
def build_funding_transaction (wsh : Script → List Nat) (txins : List TxIn)
    (alice_pubkey bob_pubkey : PublicKey) (amount : Nat) : Transaction :=
  let witness_script := two_of_two_multisig_witness_script alice_pubkey bob_pubkey
  let p2wsh_script_pubkey := new_p2wsh (wsh witness_script)
  let output := build_output amount p2wsh_script_pubkey
  build_transaction 2 0 txins [output]

/-- Exercise 3 of the source: the refund transaction, two P2WPKH outputs,
sorted by the output comparator. -/
def build_refund_transaction (h160 : PublicKey → List Nat) (funding_txin : TxIn)
    (alice_pubkey bob_pubkey : PublicKey)
    (alice_balance bob_balance : Nat) : Transaction :=
  let alice_script := p2wpkh_output_script h160 alice_pubkey
  let bob_script := p2wpkh_output_script h160 bob_pubkey
  let alice_output := build_output alice_balance alice_script
  let bob_output := build_output bob_balance bob_script
  let outputs := sortOutputs [alice_output, bob_output]
  build_transaction 2 0 [funding_txin] outputs

/-- Exercise 7 of the source: the commitment transaction, a revocable
to-local P2WSH output and a remote P2WPKH output, sorted. -/
def build_commitment_transaction (wsh : Script → List Nat)
    (h160 : PublicKey → List Nat) (funding_txin : TxIn)
    (revocation_pubkey to_local_delayed_pubkey remote_pubkey : PublicKey)
    (to_self_delay : Int) (local_amount remote_amount : Nat) : Transaction :=
  let to_local_script := to_local revocation_pubkey to_local_delayed_pubkey to_self_delay
  let to_local_p2wsh := new_p2wsh (wsh to_local_script)
  let local_output := build_output local_amount to_local_p2wsh
  let remote_script := p2wpkh_output_script h160 remote_pubkey
  let remote_output := build_output remote_amount remote_script
  let outputs := sortOutputs [local_output, remote_output]
  build_transaction 2 0 [funding_txin] outputs

/-- Exercise 8 of the source: the HTLC commitment transaction, three
outputs (to-local, remote, offered HTLC), sorted.  The internal helper
build_htlc_offerer_witness_script is not in the sources and the spec
(§4.2) delegates its exact opcode sequence, so it is the parameter htlcWS. -/
def build_htlc_commitment_transaction (wsh : Script → List Nat)
    (h160 : PublicKey → List Nat)
    (htlcWS : PublicKey → PublicKey → PublicKey → List Nat → Script)
    (funding_txin : TxIn)
    (revocation_pubkey remote_htlc_pubkey local_htlc_pubkey
      to_local_delayed_pubkey remote_pubkey : PublicKey)
    (to_self_delay : Int) (payment_hash160 : List Nat)
    (htlc_amount local_amount remote_amount : Nat) : Transaction :=
  let to_local_script := to_local revocation_pubkey to_local_delayed_pubkey to_self_delay
  let to_local_p2wsh := new_p2wsh (wsh to_local_script)
  let local_output := build_output local_amount to_local_p2wsh
  let remote_script := p2wpkh_output_script h160 remote_pubkey
  let remote_output := build_output remote_amount remote_script
  let htlc_script := htlcWS revocation_pubkey remote_htlc_pubkey
      local_htlc_pubkey payment_hash160
  let htlc_p2wsh := new_p2wsh (wsh htlc_script)
  let htlc_output := build_output htlc_amount htlc_p2wsh
  let outputs := sortOutputs [local_output, remote_output, htlc_output]
  build_transaction 2 0 [funding_txin] outputs

/-- Exercise 9 of the source: the HTLC timeout transaction, a single
revocable to-local output; the locktime is overridden to cltv_expiry after
construction. -/
def build_htlc_timeout_transaction (wsh : Script → List Nat) (htlc_txin : TxIn)
    (revocation_pubkey to_local_delayed_pubkey : PublicKey)
    (to_self_delay : Int) (cltv_expiry : Nat) (htlc_amount : Nat) : Transaction :=
  let to_local_script := to_local revocation_pubkey to_local_delayed_pubkey to_self_delay
  let to_local_p2wsh := new_p2wsh (wsh to_local_script)
  let output := build_output htlc_amount to_local_p2wsh
  let tx := build_transaction 2 0 [htlc_txin] [output]
  { tx with lock_time := cltv_expiry }

/-!
  Key derivation (exercises 4 and 5 of the source).  The spec (§1, §6)
  treats the raw secp256k1 point/scalar arithmetic, serialization and the
  hash over concatenated serialized points as external collaborators, so
  the embedding is parametric: P is the group of public keys, a module
  over the scalar field ZMod secpOrder with generator G, and the hash is
  built from a serializer ser and a digest-to-scalar map sha.  Every
  theorem holds for all instantiations, the real secp256k1 one included.
-/

/-- The order of the secp256k1 group, the modulus of secret-key scalars. -/
def secpOrder : Nat :=
  0xFFFFFFFFFFFFFFFFFFFFFFFFFFFFFFFEBAAEDCE6AF48A03BBFD25E8CD0364141

section KeyDerivation

variable {P : Type} [AddCommGroup P] [Module (ZMod secpOrder) P]

/-- The internal helper hash_pubkeys: the tweak scalar obtained by hashing
the concatenation of the two serialized points (spec §3, §6); ser and sha
are the external serializer and digest-to-scalar map. -/
def hash_pubkeys (ser : P → List Nat) (sha : List Nat → ZMod secpOrder)
    (k1 k2 : P) : ZMod secpOrder :=
  sha (ser k1 ++ ser k2)

/-- The internal helper pubkey_from_secret: the public point of a secret
scalar, its multiple of the generator G. -/
def pubkey_from_secret (G : P) (s : ZMod secpOrder) : P := s • G

/-- The internal helper pubkey_multipication_tweak: scalar-multiplies a
point by a tweak. -/
def pubkey_multipication_tweak (p : P) (t : ZMod secpOrder) : P := t • p

/-- The internal helper privkey_multipication_tweak: multiplies a secret
by a tweak modulo the group order. -/
def privkey_multipication_tweak (s t : ZMod secpOrder) : ZMod secpOrder := s * t

/-- The internal helper add_pubkeys: point addition. -/
def add_pubkeys (p q : P) : P := p + q

/-- The internal helper add_privkeys: scalar addition modulo the order. -/
def add_privkeys (a b : ZMod secpOrder) : ZMod secpOrder := a + b

/-- Exercise 4 of the source: the revocation public key,
H(B ∥ C)·B + H(C ∥ B)·C for basepoint B and per-commitment point C. -/
def generate_revocation_pubkey (ser : P → List Nat)
    (sha : List Nat → ZMod secpOrder)
    (countersignatory_basepoint per_commitment_point : P) : P :=
  let tweak1 := hash_pubkeys ser sha countersignatory_basepoint per_commitment_point
  let tweak2 := hash_pubkeys ser sha per_commitment_point countersignatory_basepoint
  let p1 := pubkey_multipication_tweak countersignatory_basepoint tweak1
  let p2 := pubkey_multipication_tweak per_commitment_point tweak2
  add_pubkeys p1 p2

/-- Exercise 5 of the source: the revocation secret key, recovering both
public points, computing the same two tweaks, scaling each secret by its
role's tweak and adding modulo the order. -/
def generate_revocation_privkey (G : P) (ser : P → List Nat)
    (sha : List Nat → ZMod secpOrder)
    (countersignatory_per_commitment_secret revocation_base_secret :
      ZMod secpOrder) : ZMod secpOrder :=
  let base_point := pubkey_from_secret G revocation_base_secret
  let per_commitment_point :=
    pubkey_from_secret G countersignatory_per_commitment_secret
  let tweak1 := hash_pubkeys ser sha base_point per_commitment_point
  let tweak2 := hash_pubkeys ser sha per_commitment_point base_point
  let sk1 := privkey_multipication_tweak revocation_base_secret tweak1
  let sk2 := privkey_multipication_tweak
    countersignatory_per_commitment_secret tweak2
  add_privkeys sk1 sk2

end KeyDerivation

/-!
  Order theory of the output comparator: the comparator of the source's
  sort_by closures induces the total order the spec describes, ascending
  value with ascending byte-lexicographic scriptPubKey as tie-break.
-/

/-- The spec's description of the output order (§3, §4.3): ascending
numeric value first, ascending byte-lexicographic script as tie-break. -/
def outLe_spec (a b : TxOut) : Prop :=
  a.value < b.value ∨
    (a.value = b.value ∧
      (List.Lex (· < ·) a.script_pubkey b.script_pubkey ∨
        a.script_pubkey = b.script_pubkey))

theorem compareBytes_lt_iff :
    ∀ a b : List Nat, compareBytes a b = .lt ↔ List.Lex (· < ·) a b := by
  intro a
  induction a with
  | nil =>
    intro b
    cases b with
    | nil => simp [compareBytes]
    | cons c cs => simp [compareBytes, List.Lex.nil]
  | cons x xs ih =>
    intro b
    cases b with
    | nil =>
      simp only [compareBytes]
      constructor
      · intro h; cases h
      · intro h; exact absurd h (List.Lex.not_nil_right _ _)
    | cons y ys =>
      rcases Nat.lt_trichotomy x y with hxy | hxy | hxy
      · simp only [compareBytes]
        rw [show compare x y = .lt from Nat.compare_eq_lt.mpr hxy]
        simp only [Ordering.then]
        exact ⟨fun _ => List.Lex.rel hxy, fun _ => by trivial⟩
      · subst hxy
        simp only [compareBytes]
        rw [show compare x x = .eq from Nat.compare_eq_eq.mpr rfl]
        simp only [Ordering.then]
        rw [ih ys, List.Lex.cons_iff]
      · simp only [compareBytes]
        rw [show compare x y = .gt from Nat.compare_eq_gt.mpr hxy]
        simp only [Ordering.then]
        constructor
        · intro h; cases h
        · intro h
          cases h with
          | rel h' => exact absurd hxy (Nat.lt_asymm h')
          | cons h' => exact absurd hxy (lt_irrefl _)

theorem compareBytes_eq_iff :
    ∀ a b : List Nat, compareBytes a b = .eq ↔ a = b := by
  intro a
  induction a with
  | nil =>
    intro b
    cases b with
    | nil => simp [compareBytes]
    | cons c cs => simp [compareBytes]
  | cons x xs ih =>
    intro b
    cases b with
    | nil => simp [compareBytes]
    | cons y ys =>
      rcases Nat.lt_trichotomy x y with hxy | hxy | hxy
      · simp only [compareBytes]
        rw [show compare x y = .lt from Nat.compare_eq_lt.mpr hxy]
        simp only [Ordering.then]
        constructor
        · intro h; cases h
        · intro h
          exact absurd (List.cons.injEq .. ▸ h).1 (Nat.ne_of_lt hxy)
      · subst hxy
        simp only [compareBytes]
        rw [show compare x x = .eq from Nat.compare_eq_eq.mpr rfl]
        simp only [Ordering.then]
        rw [ih ys]
        simp
      · simp only [compareBytes]
        rw [show compare x y = .gt from Nat.compare_eq_gt.mpr hxy]
        simp only [Ordering.then]
        constructor
        · intro h; cases h
        · intro h
          exact absurd (List.cons.injEq .. ▸ h).1 (Nat.ne_of_gt hxy)

theorem lexNat_trichotomy (a b : List Nat) :
    List.Lex (· < ·) a b ∨ a = b ∨ List.Lex (· < ·) b a :=
  @trichotomous (List Nat) (List.Lex (· < ·)) _ a b

theorem compareBytes_gt_iff (a b : List Nat) :
    compareBytes a b = .gt ↔ List.Lex (· < ·) b a := by
  constructor
  · intro h
    rcases lexNat_trichotomy a b with hl | he | hg
    · rw [← compareBytes_lt_iff] at hl
      rw [hl] at h; cases h
    · rw [← compareBytes_eq_iff] at he
      rw [he] at h; cases h
    · exact hg
  · intro h
    cases hc : compareBytes a b with
    | lt =>
      rw [compareBytes_lt_iff] at hc
      exact absurd h (asymm hc)
    | eq =>
      rw [compareBytes_eq_iff] at hc
      subst hc
      exact absurd h (irrefl_of (List.Lex (· < ·)) a)
    | gt => rfl

/-- The comparator-induced order coincides with the spec's order. -/
theorem outLe_iff (a b : TxOut) : outLe a b ↔ outLe_spec a b := by
  unfold outLe cmpOut outLe_spec
  rcases Nat.lt_trichotomy a.value b.value with hv | hv | hv
  · rw [show compare a.value b.value = .lt from Nat.compare_eq_lt.mpr hv]
    simp only [Ordering.then]
    constructor
    · intro _; exact Or.inl hv
    · intro _ h; cases h
  · rw [show compare a.value b.value = .eq from Nat.compare_eq_eq.mpr hv]
    simp only [Ordering.then]
    constructor
    · intro h
      refine Or.inr ⟨hv, ?_⟩
      rcases lexNat_trichotomy a.script_pubkey b.script_pubkey
        with hl | he | hg
      · exact Or.inl hl
      · exact Or.inr he
      · exact absurd ((compareBytes_gt_iff _ _).mpr hg) h
    · intro h hgt
      rcases h with h | ⟨_, h⟩
      · exact absurd hv (Nat.ne_of_lt h)
      · rw [compareBytes_gt_iff] at hgt
        rcases h with h | h
        · exact absurd h (asymm hgt)
        · rw [h] at hgt
          exact absurd hgt (irrefl_of (List.Lex (· < ·)) _)
  · rw [show compare a.value b.value = .gt from Nat.compare_eq_gt.mpr hv]
    simp only [Ordering.then]
    constructor
    · intro h; exact absurd rfl h
    · intro h
      rcases h with h | ⟨h, _⟩
      · exact absurd hv (Nat.lt_asymm h)
      · exact absurd h (Nat.ne_of_gt hv)

instance : IsTotal TxOut outLe := by
  constructor
  intro a b
  rw [outLe_iff, outLe_iff]
  unfold outLe_spec
  rcases Nat.lt_trichotomy a.value b.value with hv | hv | hv
  · exact Or.inl (Or.inl hv)
  · rcases lexNat_trichotomy a.script_pubkey b.script_pubkey
      with hl | he | hg
    · exact Or.inl (Or.inr ⟨hv, Or.inl hl⟩)
    · exact Or.inl (Or.inr ⟨hv, Or.inr he⟩)
    · exact Or.inr (Or.inr ⟨hv.symm, Or.inl hg⟩)
  · exact Or.inr (Or.inl hv)

instance : IsTrans TxOut outLe := by
  constructor
  intro a b c hab hbc
  rw [outLe_iff] at hab hbc ⊢
  unfold outLe_spec at hab hbc ⊢
  rcases hab with hab | ⟨hab, hab'⟩
  · rcases hbc with hbc | ⟨hbc, _⟩
    · exact Or.inl (Nat.lt_trans hab hbc)
    · exact Or.inl (hbc ▸ hab)
  · rcases hbc with hbc | ⟨hbc, hbc'⟩
    · exact Or.inl (hab ▸ hbc)
    · refine Or.inr ⟨hab.trans hbc, ?_⟩
      rcases hab' with h1 | h1
      · rcases hbc' with h2 | h2
        · exact Or.inl (IsTrans.trans _ _ _ h1 h2)
        · exact Or.inl (h2 ▸ h1)
      · rcases hbc' with h2 | h2
        · exact Or.inl (h1 ▸ h2)
        · exact Or.inr (h1.trans h2)

instance : IsAntisymm TxOut outLe := by
  constructor
  intro a b hab hba
  rw [outLe_iff] at hab hba
  unfold outLe_spec at hab hba
  obtain ⟨av, as⟩ := a
  obtain ⟨bv, bs⟩ := b
  simp only at hab hba
  rcases hab with hab | ⟨hv, hab⟩
  · rcases hba with hba | ⟨hv, _⟩
    · exact absurd hab (Nat.lt_asymm hba)
    · exact absurd hab (hv ▸ lt_irrefl _)
  · rcases hba with hba | ⟨_, hba⟩
    · exact absurd hba (hv ▸ lt_irrefl _)
    · subst hv
      rcases hab with h1 | h1
      · rcases hba with h2 | h2
        · exact absurd h1 (asymm h2)
        · exact absurd h1 (h2 ▸ irrefl_of (List.Lex (· < ·)) _)
      · rw [h1]

/-- The sorted outputs are sorted for the comparator-induced order. -/
theorem sortOutputs_sorted (l : List TxOut) :
    List.Sorted outLe (sortOutputs l) :=
  List.sorted_insertionSort outLe l

/-- The sorted outputs are pairwise in the spec's order. -/
theorem sortOutputs_pairwise_spec (l : List TxOut) :
    List.Pairwise outLe_spec (sortOutputs l) :=
  (sortOutputs_sorted l).imp fun h => (outLe_iff _ _).mp h

/-- Sorting only permutes the outputs. -/
theorem sortOutputs_perm (l : List TxOut) : (sortOutputs l).Perm l :=
  List.perm_insertionSort outLe l

/-- The sort result only depends on the multiset of outputs: permuting the
construction order does not change it. -/
theorem sortOutputs_congr_perm {l₁ l₂ : List TxOut} (h : l₁.Perm l₂) :
    sortOutputs l₁ = sortOutputs l₂ :=
  List.eq_of_perm_of_sorted
    ((sortOutputs_perm l₁).trans (h.trans (sortOutputs_perm l₂).symm))
    (sortOutputs_sorted l₁) (sortOutputs_sorted l₂)

/-- Sorting a two-element list whose first value is strictly smaller is
the identity. -/
theorem sortOutputs_pair_lt {o1 o2 : TxOut} (h : o1.value < o2.value) :
    sortOutputs [o1, o2] = [o1, o2] := by
  unfold sortOutputs
  simp only [List.insertionSort, List.orderedInsert]
  rw [if_pos ((outLe_iff o1 o2).mpr (Or.inl h))]

/-!  The claim theorems. -/

/-- C1.  Cross-consistency of revocation-key derivation: for every pair of
secret keys (s1, s2) with public counterparts (P1, P2) = (s1·G, s2·G), the
public key of generate_revocation_privkey s1 s2 equals
generate_revocation_pubkey P1 P2, for every group of points, generator,
point serializer and hash. -/
theorem C1_cross_consistency {P : Type} [AddCommGroup P]
    [Module (ZMod secpOrder) P] (G : P) (ser : P → List Nat)
    (sha : List Nat → ZMod secpOrder) (s1 s2 : ZMod secpOrder) :
    pubkey_from_secret G (generate_revocation_privkey G ser sha s1 s2) =
      generate_revocation_pubkey ser sha (pubkey_from_secret G s1)
        (pubkey_from_secret G s2) := by
  simp only [generate_revocation_privkey, generate_revocation_pubkey,
    pubkey_from_secret, hash_pubkeys, privkey_multipication_tweak,
    pubkey_multipication_tweak, add_privkeys, add_pubkeys]
  rw [add_smul, mul_comm s2, mul_comm s1, mul_smul, mul_smul]
  exact add_comm _ _

/-- C2.  Symmetry of revocation-key derivation: swapping the two points
(resp. the two secrets) leaves the derived revocation public key (resp.
secret key) unchanged, for every group, generator, serializer and hash,
even though each tweak hashes a role-dependent concatenation order. -/
theorem C2_symmetry {P : Type} [AddCommGroup P]
    [Module (ZMod secpOrder) P] (G : P) (ser : P → List Nat)
    (sha : List Nat → ZMod secpOrder) (A B : P) (a b : ZMod secpOrder) :
    generate_revocation_pubkey ser sha A B =
        generate_revocation_pubkey ser sha B A ∧
      generate_revocation_privkey G ser sha a b =
        generate_revocation_privkey G ser sha b a := by
  constructor
  · simp only [generate_revocation_pubkey, hash_pubkeys,
      pubkey_multipication_tweak, add_pubkeys]
    exact add_comm _ _
  · simp only [generate_revocation_privkey, pubkey_from_secret,
      hash_pubkeys, privkey_multipication_tweak, add_privkeys]
    exact add_comm _ _

/-- C4.  The 2-of-2 multisig witness script is OP_2, push of the first
key, push of the second key, OP_2, OP_CHECKMULTISIG, with the keys in
caller-supplied order (and therefore never sorted). -/
theorem C4_multisig_item_sequence (pkA pkB : PublicKey) :
    two_of_two_multisig_witness_script pkA pkB =
      [ScriptItem.op 0x52, ScriptItem.push pkA.bytes,
        ScriptItem.push pkB.bytes, ScriptItem.op 0x52,
        ScriptItem.op OP_CHECKMULTISIG] := by
  rfl

/-- Pushing an integer appends exactly the items that pushing it onto an
empty builder produces. -/
theorem Builder.push_int_items (b : Builder) (d : Int) :
    (b.push_int d).items = b.items ++ (Builder.new.push_int d).items := by
  unfold Builder.push_int
  by_cases h1 : d = -1 ∨ (1 ≤ d ∧ d ≤ 16)
  · simp [h1, Builder.push_opcode, Builder.new]
  · by_cases h2 : d = 0 <;>
      simp [h1, h2, Builder.push_opcode, Builder.push_slice, Builder.new]

/-- C5 counterexample.  The delay 70000 lies outside the 16-bit
relative-locktime block-count domain, yet to_local does not fail: it
returns the ordinary IF/ELSE template with the delay simply encoded as the
three-byte scriptint push.  The source's to_local returns a plain script
and defines no InvalidDelay (or any other) error. -/
theorem C5_counterexample :
    to_local ⟨[0x02]⟩ ⟨[0x03]⟩ 70000 =
      [ScriptItem.op OP_IF, ScriptItem.push [0x02], ScriptItem.op OP_ELSE,
        ScriptItem.push [0x70, 0x11, 0x01], ScriptItem.op OP_CSV,
        ScriptItem.op OP_DROP, ScriptItem.push [0x03],
        ScriptItem.op OP_ENDIF, ScriptItem.op OP_CHECKSIG] := by
  decide

/-- C5 amended.  The revocable-to-local builder performs no validation of
the delay at all: for every integer delay, in range or not, it succeeds
and returns the IF ⟨revocation⟩ ELSE ⟨delay⟩ CSV DROP ⟨delayed⟩ ENDIF
CHECKSIG item sequence, the delay encoded by the library's push_int. -/
theorem C5_no_delay_validation (rk dk : PublicKey) (d : Int) :
    to_local rk dk d =
      [ScriptItem.op OP_IF, ScriptItem.push rk.bytes, ScriptItem.op OP_ELSE]
        ++ (Builder.new.push_int d).items ++
        [ScriptItem.op OP_CSV, ScriptItem.op OP_DROP,
          ScriptItem.push dk.bytes, ScriptItem.op OP_ENDIF,
          ScriptItem.op OP_CHECKSIG] := by
  unfold to_local
  simp only [Builder.into_script, Builder.push_opcode, Builder.push_key,
    Builder.push_slice]
  rw [Builder.push_int_items]
  simp [Builder.new, Builder.push_opcode]

/-- C6.  The HTLC timeout transaction has exactly one output, the P2WSH
wrapping of the revocable to-local script carrying the HTLC amount, and
its locktime field equals the cltv_expiry argument (so with
cltv_expiry = 500000 the locktime is 500000). -/
theorem C6_htlc_timeout_output_and_locktime (wsh : Script → List Nat)
    (htlc_txin : TxIn) (rk dk : PublicKey) (d : Int) (cltv amt : Nat) :
    (build_htlc_timeout_transaction wsh htlc_txin rk dk d cltv amt).output =
        [build_output amt (new_p2wsh (wsh (to_local rk dk d)))] ∧
      (build_htlc_timeout_transaction wsh htlc_txin rk dk d cltv amt).lock_time
        = cltv :=
  ⟨rfl, rfl⟩

/-- C7 counterexample.  Called with an input whose sequence number is the
locktime-disabling value 0xFFFFFFFF, build_htlc_timeout_transaction
returns a transaction whose single input still carries that sequence
number: the factory neither sets nor checks the sequence, so the claim
that the sequence is never the disabling value is false. -/
theorem C7_counterexample :
    ((build_htlc_timeout_transaction (fun _ => []) ⟨⟨[], 0⟩, [], 0xFFFFFFFF, []⟩
        ⟨[0x02]⟩ ⟨[0x03]⟩ 144 500000 1000).input.map TxIn.sequence) =
      [0xFFFFFFFF] := by
  decide

/-- C7 amended.  The HTLC timeout builder passes the caller-supplied input
through unchanged, sequence number included; its sequence avoids the
locktime-disabling value exactly when the caller's input does, the factory
itself enforcing nothing. -/
theorem C7_sequence_passthrough (wsh : Script → List Nat) (htlc_txin : TxIn)
    (rk dk : PublicKey) (d : Int) (cltv amt : Nat) :
    (build_htlc_timeout_transaction wsh htlc_txin rk dk d cltv amt).input =
        [htlc_txin] ∧
      (∀ txin ∈ (build_htlc_timeout_transaction wsh htlc_txin rk dk d cltv
          amt).input, (txin.sequence ≠ 0xFFFFFFFF ↔
            htlc_txin.sequence ≠ 0xFFFFFFFF)) := by
  refine ⟨rfl, ?_⟩
  intro txin htxin
  cases htxin with
  | head => exact Iff.rfl
  | tail _ h => cases h

/-- C9.  Every transaction produced by the five builders has version 2;
the funding, refund, commitment and HTLC-commitment builders set locktime
zero, and the HTLC timeout builder sets locktime cltv_expiry. -/
theorem C9_version_and_locktime (wsh : Script → List Nat)
    (h160 : PublicKey → List Nat)
    (htlcWS : PublicKey → PublicKey → PublicKey → List Nat → Script)
    (txins : List TxIn) (t : TxIn) (pkA pkB rk dk rpk rh lh : PublicKey)
    (d : Int) (ph : List Nat) (amt vA vB vL vR vH cltv : Nat) :
    (build_funding_transaction wsh txins pkA pkB amt).version = 2 ∧
    (build_funding_transaction wsh txins pkA pkB amt).lock_time = 0 ∧
    (build_refund_transaction h160 t pkA pkB vA vB).version = 2 ∧
    (build_refund_transaction h160 t pkA pkB vA vB).lock_time = 0 ∧
    (build_commitment_transaction wsh h160 t rk dk rpk d vL vR).version = 2 ∧
    (build_commitment_transaction wsh h160 t rk dk rpk d vL vR).lock_time = 0 ∧
    (build_htlc_commitment_transaction wsh h160 htlcWS t rk rh lh dk rpk d ph
      vH vL vR).version = 2 ∧
    (build_htlc_commitment_transaction wsh h160 htlcWS t rk rh lh dk rpk d ph
      vH vL vR).lock_time = 0 ∧
    (build_htlc_timeout_transaction wsh t rk dk d cltv amt).version = 2 ∧
    (build_htlc_timeout_transaction wsh t rk dk d cltv amt).lock_time = cltv :=
  ⟨rfl, rfl, rfl, rfl, rfl, rfl, rfl, rfl, rfl, rfl⟩

/-- C10.  Every builder passes its caller-supplied inputs through
unchanged: the input list of the returned transaction is exactly the
caller's TxIn values in the caller's order, every field included. -/
theorem C10_inputs_passthrough (wsh : Script → List Nat)
    (h160 : PublicKey → List Nat)
    (htlcWS : PublicKey → PublicKey → PublicKey → List Nat → Script)
    (txins : List TxIn) (t : TxIn) (pkA pkB rk dk rpk rh lh : PublicKey)
    (d : Int) (ph : List Nat) (amt vA vB vL vR vH cltv : Nat) :
    (build_funding_transaction wsh txins pkA pkB amt).input = txins ∧
    (build_refund_transaction h160 t pkA pkB vA vB).input = [t] ∧
    (build_commitment_transaction wsh h160 t rk dk rpk d vL vR).input = [t] ∧
    (build_htlc_commitment_transaction wsh h160 htlcWS t rk rh lh dk rpk d ph
      vH vL vR).input = [t] ∧
    (build_htlc_timeout_transaction wsh t rk dk d cltv amt).input = [t] :=
  ⟨rfl, rfl, rfl, rfl, rfl⟩

/-- C3.  Deterministic output ordering: the outputs of the refund,
commitment and HTLC-commitment transactions are pairwise in ascending
value order with ascending byte-lexicographic scriptPubKey as tie-break;
the refund transaction is unchanged when its argument order is swapped;
and with balances 300 and 700 the 300-value output comes strictly first. -/
theorem C3_output_ordering (wsh : Script → List Nat)
    (h160 : PublicKey → List Nat)
    (htlcWS : PublicKey → PublicKey → PublicKey → List Nat → Script)
    (t : TxIn) (pkA pkB rk dk rpk rh lh : PublicKey) (d : Int)
    (ph : List Nat) (vA vB vL vR vH : Nat) :
    List.Pairwise outLe_spec
        (build_refund_transaction h160 t pkA pkB vA vB).output ∧
    List.Pairwise outLe_spec
        (build_commitment_transaction wsh h160 t rk dk rpk d vL vR).output ∧
    List.Pairwise outLe_spec
        (build_htlc_commitment_transaction wsh h160 htlcWS t rk rh lh dk rpk
          d ph vH vL vR).output ∧
    build_refund_transaction h160 t pkA pkB vA vB =
        build_refund_transaction h160 t pkB pkA vB vA ∧
    (build_refund_transaction h160 t pkA pkB 300 700).output.map TxOut.value
        = [300, 700] := by
  refine ⟨?_, ?_, ?_, ?_, ?_⟩
  · exact sortOutputs_pairwise_spec _
  · exact sortOutputs_pairwise_spec _
  · exact sortOutputs_pairwise_spec _
  · show build_transaction 2 0 [t]
        (sortOutputs [build_output vA (p2wpkh_output_script h160 pkA),
          build_output vB (p2wpkh_output_script h160 pkB)]) =
      build_transaction 2 0 [t]
        (sortOutputs [build_output vB (p2wpkh_output_script h160 pkB),
          build_output vA (p2wpkh_output_script h160 pkA)])
    exact congrArg _ (sortOutputs_congr_perm (List.Perm.swap _ _ _))
  · show (sortOutputs [build_output 300 (p2wpkh_output_script h160 pkA),
        build_output 700 (p2wpkh_output_script h160 pkB)]).map TxOut.value
        = [300, 700]
    rw [sortOutputs_pair_lt (show (300 : Nat) < 700 by decide)]
    rfl

/-- C8 counterexample.  With both balances at the 64-bit maximum, whose
sum exceeds the representable amount domain, build_refund_transaction does
not fail with AmountOverflow (or anything else): it returns a transaction
carrying both oversize values verbatim.  No builder in the source can
fail, so the claimed AmountOverflow error does not exist. -/
theorem C8_counterexample :
    18446744073709551615 + 18446744073709551615 > 18446744073709551615 ∧
      ((build_refund_transaction (fun _ => []) ⟨⟨[], 0⟩, [], 0, []⟩ ⟨[0x02]⟩
          ⟨[0x03]⟩ 18446744073709551615 18446744073709551615).output.map
        TxOut.value) = [18446744073709551615, 18446744073709551615] := by
  constructor
  · decide
  · decide

/-- C8 amended.  The builders introduce no error at all: each is a total
function whose outputs carry exactly the caller-supplied amounts, with no
overflow check on their sum, and their sub-calls (script templates, key
derivation) are likewise total, so there is nothing to propagate. -/
theorem C8_no_failure_values_passthrough (wsh : Script → List Nat)
    (h160 : PublicKey → List Nat)
    (htlcWS : PublicKey → PublicKey → PublicKey → List Nat → Script)
    (txins : List TxIn) (t : TxIn) (pkA pkB rk dk rpk rh lh : PublicKey)
    (d : Int) (ph : List Nat) (amt vA vB vL vR vH cltv : Nat) :
    (build_funding_transaction wsh txins pkA pkB amt).output.map TxOut.value
        = [amt] ∧
    ((build_refund_transaction h160 t pkA pkB vA vB).output.map
        TxOut.value).Perm [vA, vB] ∧
    ((build_commitment_transaction wsh h160 t rk dk rpk d vL vR).output.map
        TxOut.value).Perm [vL, vR] ∧
    ((build_htlc_commitment_transaction wsh h160 htlcWS t rk rh lh dk rpk d
        ph vH vL vR).output.map TxOut.value).Perm [vL, vR, vH] ∧
    (build_htlc_timeout_transaction wsh t rk dk d cltv amt).output.map
        TxOut.value = [amt] := by
  refine ⟨rfl, ?_, ?_, ?_, rfl⟩
  · exact (sortOutputs_perm _).map TxOut.value
  · exact (sortOutputs_perm _).map TxOut.value
  · exact (sortOutputs_perm _).map TxOut.value

end LN
